import Mathlib

/-!
Verification of `scripts/mermaid/generate-svgs.py`, a freshness-driven batch
renderer: it scans a directory tree for `.mmd` (Mermaid) sources, decides per
file whether the companion `.svg` output is missing or stale, and invokes the
external `mmdc` renderer for the files that need work, summarising results.

The script is shallowly embedded: the filesystem, the subprocess results and
the environment are oracles passed in explicitly; the pure logic (path
derivation, freshness decision, traversal with directory pruning, sorting,
the Chrome-discovery strategy chain, the environment construction, and the
main loop's accounting) is translated function by function from the source.
-/

namespace MermaidGen

/-- One scan step of Python's `str.replace`: at each position, if `old` is a
prefix of the remaining characters, emit `new` and skip over `old`;
otherwise keep the character. Fuel is the length of the scanned list, which
suffices because every step consumes at least one character. -/
def replaceAux (old new : List Char) : Nat → List Char → List Char
  | _, [] => []
  | 0, s => s
  | fuel+1, c :: cs =>
    if old.isPrefixOf (c :: cs) then
      new ++ replaceAux old new fuel (cs.drop (old.length - 1))
    else
      c :: replaceAux old new fuel cs

/-- Python `s.replace(old, new)`: replace every non-overlapping occurrence of
`old` in `s` by `new`, scanning left to right. -/
def pyReplace (s old new : String) : String :=
  ⟨replaceAux old.data new.data s.data.length s.data⟩

/-- `mmd_file.replace('.mmd', '.svg')` — the output path computed by both
`needs_generation` (line 51) and `generate_svg` (line 119). -/
def svgFile (mmd_file : String) : String :=
  pyReplace mmd_file ".mmd" ".svg"

/-- The part of the filesystem state that `needs_generation` consults:
`os.path.exists` and `os.path.getmtime` (modification times modelled as
integers; only their order matters to the script). -/
structure FS where
  pathExists : String → Bool
  getmtime : String → Int

/-- The three freshness verdicts the script distinguishes. -/
inductive Verdict where
  | missing
  | outdated
  | up_to_date
  deriving DecidableEq, Repr

/-- `needs_generation(mmd_file)` (lines 49–64): returns whether work is
needed together with a verdict string. The SVG path is derived with
`str.replace`; if it does not exist the verdict is `missing`; else the two
modification times are compared and a strictly newer source yields
`outdated`, anything else `up_to_date`. -/
def needs_generation (fs : FS) (mmd_file : String) : Bool × Verdict :=
  let svg_file := svgFile mmd_file
  if fs.pathExists svg_file = false then
    (true, Verdict.missing)
  else if fs.getmtime mmd_file > fs.getmtime svg_file then
    (true, Verdict.outdated)
  else
    (false, Verdict.up_to_date)

/-- A concrete filesystem used to witness `freshness_verdict_correct`:
`a.svg` exists and `a.mmd` is strictly newer than it. -/
def fsW : FS :=
  { pathExists := fun s => s == "a.mmd" || s == "a.svg"
    getmtime := fun s => if s == "a.mmd" then 5 else 3 }

mutual
inductive DirTree where
  | node (name : String) (files : List String) (dirs : DirForest)
inductive DirForest where
  | nil
  | cons (t : DirTree) (ts : DirForest)
end

def DirTree.name : DirTree → String
  | .node n _ _ => n

def excluded_dirs : List String := [".git", ".venv", "__pycache__", "node_modules"]

def pathJoin (root f : String) : String := root ++ "/" ++ f

def endsWithMmd (f : String) : Bool := ".mmd".data.isSuffixOf f.data

def listLe : List Char → List Char → Bool
  | [], _ => true
  | _ :: _, [] => false
  | a :: as, b :: bs =>
    if a.toNat < b.toNat then true
    else if b.toNat < a.toNat then false
    else listLe as bs

def strLe (a b : String) : Bool := listLe a.data b.data

mutual
def collectTree (path : String) : DirTree → List String
  | .node _ files dirs =>
    ((files.filter endsWithMmd).map (pathJoin path)) ++ collectForest path dirs
def collectForest (path : String) : DirForest → List String
  | .nil => []
  | .cons d ds =>
    (if d.name ∈ excluded_dirs then []
     else collectTree (pathJoin path d.name) d) ++ collectForest path ds
end

def insertSorted (x : String) : List String → List String
  | [] => [x]
  | y :: ys => if strLe x y then x :: y :: ys else y :: insertSorted x ys

def sortStrings (l : List String) : List String := l.foldr insertSorted []

def find_mmd_files (t : DirTree) : List String := sortStrings (collectTree "." t)

def demoDirTree : DirTree :=
  .node "." ["b.mmd", "readme.txt", "a.mmd"]
    (.cons (.node "node_modules" ["c.mmd"] .nil)
      (.cons (.node "sub" ["d.mmd"] .nil) .nil))

mutual
def pruneTree : DirTree → DirTree
  | .node n files dirs => .node n files (pruneForest dirs)
def pruneForest : DirForest → DirForest
  | .nil => .nil
  | .cons d ds =>
    if d.name ∈ excluded_dirs then pruneForest ds
    else .cons (pruneTree d) (pruneForest ds)
end

/-- Substring test: does `pat` occur (contiguously) in `s`? Models Python's
`pat in s` on strings. -/
def occursIn (pat : List Char) : List Char → Bool
  | [] => pat.isPrefixOf []
  | c :: cs => pat.isPrefixOf (c :: cs) || occursIn pat cs

/-- The oracle environment `find_chrome_path` runs against: the home
directory, `os.path.exists`, `glob.glob` results per pattern, and the
`(root, files)` pairs that `os.walk` of the puppeteer cache root yields, in
order (the `dirs` component is not consulted by the code). -/
structure ChromeEnv where
  home : String
  pathExists : String → Bool
  glob : String → List String
  cacheWalk : List (String × List String)

/-- The fixed system Chrome locations (lines 72–77), checked in order for
plain existence. -/
def system_chrome_paths : List String :=
  [ "/Applications/Google Chrome.app/Contents/MacOS/Google Chrome",
    "/Applications/Chromium.app/Contents/MacOS/Chromium",
    "/usr/bin/google-chrome",
    "/usr/bin/chromium" ]

/-- The version-wildcarded puppeteer cache glob patterns (lines 85–91). -/
def puppeteer_cache_paths (home : String) : List String :=
  [ home ++ "/.cache/puppeteer/chrome/*/chrome-mac-arm64/Google Chrome.app/Contents/MacOS/Google Chrome",
    home ++ "/.cache/puppeteer/chrome/*/chrome-mac-x64/Google Chrome.app/Contents/MacOS/Google Chrome",
    home ++ "/.cache/puppeteer/chrome/*/chrome-headless-shell-mac-arm64/chrome-headless-shell",
    home ++ "/.cache/puppeteer/chrome/*/chrome-headless-shell-mac-x64/chrome-headless-shell",
    home ++ "/.cache/puppeteer/chrome/*/chrome-headless-shell/chrome-headless-shell" ]

/-- The glob stage (lines 94–98): for each pattern in order, if it has
matches, return `sorted(matches)[-1]`. -/
def globStage (env : ChromeEnv) : List String → Option String
  | [] => none
  | pat :: pats =>
    if (env.glob pat).isEmpty then globStage env pats
    else (sortStrings (env.glob pat)).getLast?

/-- The cache-walk stage (lines 105–112): on each `os.walk` entry, return a
`chrome-headless-shell` found among the files, else a `chrome` provided the
root path does not contain `headless`. -/
def walkChrome : List (String × List String) → Option String
  | [] => none
  | (root, files) :: rest =>
    if files.contains "chrome-headless-shell" then
      some (pathJoin root "chrome-headless-shell")
    else if files.contains "chrome" && !(occursIn "headless".data root.data) then
      some (pathJoin root "chrome")
    else walkChrome rest

/-- `find_chrome_path()` (lines 67–114): fixed system paths, then glob
patterns, then a walk of `~/.cache/puppeteer/chrome` (guarded by its
existence), else `None`. -/
def find_chrome_path (env : ChromeEnv) : Option String :=
  match system_chrome_paths.find? (fun p => env.pathExists p) with
  | some p => some p
  | none =>
    match globStage env (puppeteer_cache_paths env.home) with
    | some p => some p
    | none =>
      if env.pathExists (env.home ++ "/.cache/puppeteer/chrome") then
        walkChrome env.cacheWalk
      else none

/-- `env = os.environ.copy()` followed by the two assignments of lines
125–128 when a Chrome path was found; the child environment handed to the
renderer subprocess. -/
def childEnv (parent : String → Option String) : Option String → String → Option String
  | none => parent
  | some p => fun k =>
    if k = "PUPPETEER_EXECUTABLE_PATH" then some p
    else if k = "CHROME_PATH" then some p
    else parent k

/-- A concrete oracle environment for the Chrome-discovery witness: only
`/usr/bin/chromium` exists as a system path, globs return three versioned
matches, and a cache walk whose first entry is a `chrome` under a
`headless` root. -/
def chromeEnvW : ChromeEnv :=
  { home := "/home/u"
    pathExists := fun s => s == "/usr/bin/chromium"
    glob := fun _ => ["v1", "v10", "v9"]
    cacheWalk := [("cache/headless-a", ["chrome"]), ("cache/b", ["chrome-headless-shell"])] }

/-- Outcome of `subprocess.run(['mmdc', '--version'], check=True)`: the
process ran and exited zero, it exited non-zero (`CalledProcessError`), or
the executable was not found (`FileNotFoundError`). -/
inductive ProcResult where
  | success
  | nonzeroExit
  | notFound
  deriving DecidableEq

/-- `check_mmdc()` (lines 22–31): `True` on a clean run, `False` on either
exception. -/
def check_mmdc (r : ProcResult) : Bool :=
  match r with
  | .success => true
  | .nonzeroExit => false
  | .notFound => false

/-- The oracle environment a whole run of the script is evaluated against:
the availability-check outcome, the directory tree under the scan root, the
filesystem consulted by the freshness check, the parent process
environment, the Chrome-discovery oracles, and the per-file outcome of the
`mmdc -i -o` subprocess (`none` = exit 0; `some stderr` =
`CalledProcessError` with that captured standard error). The filesystem is
taken as fixed for the run: the renderer only (over)writes each file's own
output, which no later freshness check of a different source reads. -/
structure Env where
  mmdcProc : ProcResult
  tree : DirTree
  fs : FS
  osEnviron : String → Option String
  chromeEnv : ChromeEnv
  renderOutcome : String → Option String

/-- The child-process environment `generate_svg` passes to `subprocess.run`
(lines 122–128): the parent environment, with the two Chrome variables set
when discovery succeeded. -/
def renderChildEnv (env : Env) : String → Option String :=
  childEnv env.osEnviron (find_chrome_path env.chromeEnv)

/-- `generate_svg(mmd_file)` (lines 117–140): derive the output path, build
the child environment, run `mmdc -i mmd_file -o svg_file`; `(True, None)`
on success, `(False, stderr)` on `CalledProcessError`. -/
def generate_svg (env : Env) (mmd_file : String) : Bool × Option String :=
  let svg_file := svgFile mmd_file
  let cenv := renderChildEnv env
  match env.renderOutcome mmd_file with
  | none => (true, none)
  | some err => (false, some err)

/-- The mutable state of the processing loop in `main` (lines 167–170):
counters, the error list, plus two run traces — the renderer invocations
made and the lines printed. -/
structure LoopState where
  generated : Nat
  updated : Nat
  skipped : Nat
  errors : List (String × Option String)
  renderCalls : List String
  out : List String

/-- One iteration of the processing loop (lines 172–194). -/
def processFile (env : Env) (st : LoopState) (mmd_file : String) : LoopState :=
  let ng := needs_generation env.fs mmd_file
  if ng.1 = false then
    { st with skipped := st.skipped + 1 }
  else
    let svg_file := svgFile mmd_file
    match ng.2 with
    | Verdict.missing =>
      let res := generate_svg env mmd_file
      if res.1 then
        { st with out := st.out ++ ["Generating: " ++ svg_file],
                  renderCalls := st.renderCalls ++ [mmd_file],
                  generated := st.generated + 1 }
      else
        { st with out := st.out ++ ["Generating: " ++ svg_file],
                  renderCalls := st.renderCalls ++ [mmd_file],
                  errors := st.errors ++ [(mmd_file, res.2)] }
    | Verdict.outdated =>
      let res := generate_svg env mmd_file
      if res.1 then
        { st with out := st.out ++ ["Updating: " ++ svg_file ++ " (source is newer)"],
                  renderCalls := st.renderCalls ++ [mmd_file],
                  updated := st.updated + 1 }
      else
        { st with out := st.out ++ ["Updating: " ++ svg_file ++ " (source is newer)"],
                  renderCalls := st.renderCalls ++ [mmd_file],
                  errors := st.errors ++ [(mmd_file, res.2)] }
    | Verdict.up_to_date => st

/-- The install instructions printed when `mmdc` is unavailable
(lines 147–153). -/
def installMsg : List String :=
  [ "Error: mermaid-cli (mmdc) not found.",
    "Install it with:",
    "  macOS: brew install mermaid-cli",
    "  Other: npm install -g @mermaid-js/mermaid-cli",
    "",
    "Note: mermaid-cli requires Chrome/Chromium. After installation, run:",
    "  npx puppeteer browsers install chrome-headless-shell" ]

/-- The summary line of line 197. -/
def summaryLine (st : LoopState) : String :=
  "Summary: Generated: " ++ toString st.generated ++ ", Updated: " ++
    toString st.updated ++ ", Skipped: " ++ toString st.skipped ++
    ", Errors: " ++ toString st.errors.length

/-- The observable result of a run of `main()`: the `sys.exit` code, the
final counters and error list, the render-invocation trace, the printed
lines (the per-error detail block of lines 199–215 is elided — no claim
consults it and both of its branches exit 1), and whether file discovery
was reached. -/
structure RunResult where
  exitCode : Nat
  generated : Nat
  updated : Nat
  skipped : Nat
  errors : List (String × Option String)
  renderCalls : List String
  out : List String
  discoveryRan : Bool

/-- `main()` (lines 143–220): abort with the install message if `mmdc` is
unavailable; discover sources; exit 0 on none; otherwise process every file
in sorted order and exit 1 exactly when some invocation failed. -/
def main (env : Env) : RunResult :=
  if check_mmdc env.mmdcProc = false then
    { exitCode := 1, generated := 0, updated := 0, skipped := 0, errors := [],
      renderCalls := [], out := installMsg, discoveryRan := false }
  else
    let mmd_files := find_mmd_files env.tree
    if mmd_files.isEmpty then
      { exitCode := 0, generated := 0, updated := 0, skipped := 0, errors := [],
        renderCalls := [], out := ["No .mmd files found."], discoveryRan := true }
    else
      let st0 : LoopState :=
        { generated := 0, updated := 0, skipped := 0, errors := [], renderCalls := [],
          out := ["Scanning for Mermaid files (.mmd)...",
                  "Found " ++ toString mmd_files.length ++ " file(s)"] }
      let st := mmd_files.foldl (processFile env) st0
      { exitCode := if st.errors.isEmpty then 0 else 1,
        generated := st.generated, updated := st.updated, skipped := st.skipped,
        errors := st.errors, renderCalls := st.renderCalls,
        out := st.out ++ [summaryLine st], discoveryRan := true }

/-- The per-file error record the loop appends for a file: present exactly
when the file needed work and its render failed. -/
def errF (env : Env) (f : String) : Option (String × Option String) :=
  if (needs_generation env.fs f).1 then
    match env.renderOutcome f with
    | some e => some (f, some e)
    | none => none
  else none

/-- The total of the four summary categories. -/
def stateSum (st : LoopState) : Nat :=
  st.generated + st.updated + st.skipped + st.errors.length

/-- A concrete run environment for witnesses: the demonstration tree, a
filesystem on which `./b.svg` exists with a timestamp equal to its source's,
and a renderer that fails on `./a.mmd` with stderr `boom` and succeeds
elsewhere. -/
def envW : Env :=
  { mmdcProc := ProcResult.success
    tree := demoDirTree
    fs := { pathExists := fun s => s == "./b.svg"
            getmtime := fun _ => 0 }
    osEnviron := fun k => if k = "HOME" then some "/home/u" else none
    chromeEnv := chromeEnvW
    renderOutcome := fun s => if s == "./a.mmd" then some "boom" else none }

/-- The witness environment with the renderer executable missing. -/
def envBad : Env :=
  { envW with mmdcProc := ProcResult.notFound }

/-- A Chrome-discovery environment in which every strategy fails. -/
def chromeEnvNone : ChromeEnv :=
  { home := "/home/u"
    pathExists := fun _ => false
    glob := fun _ => []
    cacheWalk := [] }

/-- The witness environment with no Chrome anywhere. -/
def envNone : Env :=
  { envW with chromeEnv := chromeEnvNone }

/-- The witness environment whose tree holds no `.mmd` file. -/
def envEmpty : Env :=
  { envW with tree := DirTree.node "." ["notes.txt"] DirForest.nil }

/-- An arbitrary concrete loop state used in the C10 witness. -/
def stW : LoopState :=
  { generated := 2, updated := 1, skipped := 3, errors := [("./old.mmd", some "e")],
    renderCalls := [], out := [] }

end MermaidGen

open MermaidGen

/-- C1: for every source file the verdict is `missing` iff the output path
does not exist; when the output exists, the verdict is `outdated` iff the
source's modification time is strictly greater than the output's, and equal
timestamps give `up_to_date`. -/
theorem freshness_verdict_correct (fs : FS) (mmd : String) :
    ((needs_generation fs mmd).2 = Verdict.missing ↔ fs.pathExists (svgFile mmd) = false)
    ∧ (fs.pathExists (svgFile mmd) = true →
        (((needs_generation fs mmd).2 = Verdict.outdated ↔
            fs.getmtime mmd > fs.getmtime (svgFile mmd))
         ∧ (fs.getmtime mmd = fs.getmtime (svgFile mmd) →
            (needs_generation fs mmd).2 = Verdict.up_to_date))) := by
  unfold needs_generation
  by_cases hex : fs.pathExists (svgFile mmd) = false
  · simp [hex]
  · have hex' : fs.pathExists (svgFile mmd) = true := by
      revert hex; cases fs.pathExists (svgFile mmd) <;> simp
    by_cases hgt : fs.getmtime mmd > fs.getmtime (svgFile mmd)
    · simp [hex', hgt]
      omega
    · simp [hex', hgt]

/-- Witness for C1 at a concrete filesystem: the output exists, the source is
newer, and the verdict is `outdated`. -/
theorem freshness_verdict_correct_witness :
    (needs_generation fsW "a.mmd").2 = Verdict.outdated :=
  ((freshness_verdict_correct fsW "a.mmd").2 (by decide)).1.mpr (by decide)

/-- A list is a prefix of itself (under `==` on `Char`). -/
theorem isPrefixOf_self (l : List Char) : l.isPrefixOf l = true := by
  induction l with
  | nil => rfl
  | cons c cs ih => simp [List.isPrefixOf, ih]

/-- Scanning the empty list yields the empty list, whatever the fuel. -/
theorem replaceAux_nil (old new : List Char) (fuel : Nat) :
    replaceAux old new fuel [] = [] := by
  cases fuel <;> rfl

/-- When the pattern `old` occurs nowhere in `pre ++ old` except as the final
suffix, the scan copies `pre` verbatim and replaces only that suffix. -/
theorem replaceAux_no_occur (old new : List Char) (hold : old ≠ []) :
    ∀ (pre : List Char) (fuel : Nat), pre.length + old.length ≤ fuel →
      (∀ i, i < pre.length → old.isPrefixOf ((pre ++ old).drop i) = false) →
      replaceAux old new fuel (pre ++ old) = pre ++ new := by
  intro pre
  induction pre with
  | nil =>
    intro fuel hfuel hocc
    obtain ⟨o, os, rfl⟩ : ∃ o os, old = o :: os := by
      cases old with
      | nil => exact absurd rfl hold
      | cons o os => exact ⟨o, os, rfl⟩
    obtain ⟨f, rfl⟩ : ∃ f, fuel = f + 1 := by
      cases fuel with
      | zero => simp at hfuel
      | succ f => exact ⟨f, rfl⟩
    simp only [List.nil_append, replaceAux, isPrefixOf_self, if_true]
    have hd : os.drop ((o :: os).length - 1) = [] := by
      simp [List.drop_length]
    rw [hd, replaceAux_nil, List.append_nil]
  | cons c pre' ih =>
    intro fuel hfuel hocc
    obtain ⟨f, rfl⟩ : ∃ f, fuel = f + 1 := by
      cases fuel with
      | zero => simp at hfuel
      | succ f => exact ⟨f, rfl⟩
    have h0 : old.isPrefixOf (c :: (pre' ++ old)) = false := by
      have := hocc 0 (by simp)
      simpa using this
    simp only [List.cons_append, replaceAux, List.append_eq, h0, Bool.false_eq_true, if_false]
    rw [ih f (by simp at hfuel ⊢; omega) (fun i hi => by
      have := hocc (i + 1) (by simp; omega)
      simpa using this)]

/-- C2 counterexample: the source path `./x.mmd/a.mmd` (a `.mmd` file inside a
directory named `x.mmd`) is mapped to `./x.svg/a.svg`, because
`str.replace('.mmd', '.svg')` rewrites the directory name too; the claim
predicts `./x.mmd/a.svg`. -/
theorem svg_path_counterexample :
    svgFile "./x.mmd/a.mmd" = "./x.svg/a.svg" ∧
    svgFile "./x.mmd/a.mmd" ≠ "./x.mmd/a.svg" := by
  constructor
  · decide
  · decide

/-- C2 amended: the computed output path equals the source path with only its
extension replaced whenever the substring `.mmd` occurs nowhere in the path
except as the final extension; in general the code replaces every occurrence
of `.mmd` (see `svg_path_counterexample`). -/
theorem svg_path_extension_replaced (pre : String)
    (h : ∀ i, i < pre.data.length →
      (".mmd".data.isPrefixOf ((pre.data ++ ".mmd".data).drop i)) = false) :
    svgFile (pre ++ ".mmd") = pre ++ ".svg" := by
  unfold svgFile pyReplace
  have hdata : (pre ++ ".mmd").data = pre.data ++ ".mmd".data := by
    simp [String.data_append]
  have hlen : ".mmd".data.length = 4 := by decide
  rw [hdata]
  rw [replaceAux_no_occur ".mmd".data ".svg".data (by decide) pre.data
    ((pre.data ++ ".mmd".data).length)
    (by simp [hlen])
    h]
  have hdata' : (pre ++ ".svg").data = pre.data ++ ".svg".data := by
    simp [String.data_append]
  exact congrArg String.mk hdata'.symm

/-- Witness for C2 at a concrete deep path whose only `.mmd` occurrence is the
final extension. -/
theorem svg_path_extension_replaced_witness :
    svgFile ("docs/diagrams/flow" ++ ".mmd") = "docs/diagrams/flow" ++ ".svg" :=
  svg_path_extension_replaced "docs/diagrams/flow" (by decide)

mutual
theorem collectTree_prune (path : String) (t : DirTree) :
    collectTree path (pruneTree t) = collectTree path t := by
  cases t with
  | node n files dirs =>
    simp only [pruneTree, collectTree, collectForest_prune]
theorem collectForest_prune (path : String) (ts : DirForest) :
    collectForest path (pruneForest ts) = collectForest path ts := by
  cases ts with
  | nil => rfl
  | cons d ds =>
    by_cases h : d.name ∈ excluded_dirs
    · simp only [pruneForest, h, if_true, collectForest_prune]
      simp [collectForest, h]
    · have hn : (pruneTree d).name = d.name := by
        cases d; rfl
      simp only [pruneForest, h, if_false, collectForest, hn, collectTree_prune,
        collectForest_prune]
end

theorem listLe_refl (l : List Char) : listLe l l = true := by
  induction l with
  | nil => rfl
  | cons a as ih => simp [listLe, ih]

theorem listLe_total (a b : List Char) : listLe a b = true ∨ listLe b a = true := by
  induction a generalizing b with
  | nil => left; rfl
  | cons x xs ih =>
    cases b with
    | nil => right; rfl
    | cons y ys =>
      rcases Nat.lt_trichotomy x.toNat y.toNat with h | h | h
      · left; simp [listLe, h]
      · rcases ih ys with h2 | h2
        · left; simp [listLe, h, h2]
        · right; simp [listLe, h.symm, h2]
      · right; simp [listLe, h]

theorem listLe_trans (a b c : List Char) (hab : listLe a b = true)
    (hbc : listLe b c = true) : listLe a c = true := by
  induction a generalizing b c with
  | nil => rfl
  | cons x xs ih =>
    cases b with
    | nil => simp [listLe] at hab
    | cons y ys =>
      cases c with
      | nil => simp [listLe] at hbc
      | cons z zs =>
        simp only [listLe] at hab hbc ⊢
        by_cases hxy : x.toNat < y.toNat
        · by_cases hyz : y.toNat < z.toNat
          · simp [Nat.lt_trans hxy hyz]
          · by_cases hzy : z.toNat < y.toNat
            · simp [hyz, hzy] at hbc
            · have : y.toNat = z.toNat := by omega
              simp [this ▸ hxy]
        · by_cases hyx : y.toNat < x.toNat
          · simp [hxy, hyx] at hab
          · have hxyeq : x.toNat = y.toNat := by omega
            by_cases hyz : y.toNat < z.toNat
            · simp [hxyeq ▸ hyz]
            · by_cases hzy : z.toNat < y.toNat
              · simp [hyz, hzy] at hbc
              · have hyzeq : y.toNat = z.toNat := by omega
                simp [hxy, hyx] at hab
                simp [hyz, hzy] at hbc
                have h1 : ¬ x.toNat < z.toNat := by omega
                have h2 : ¬ z.toNat < x.toNat := by omega
                simp [h1, h2]
                exact ih ys zs hab hbc

theorem strLe_refl (a : String) : strLe a a = true := listLe_refl a.data

theorem strLe_total (a b : String) : strLe a b = true ∨ strLe b a = true :=
  listLe_total a.data b.data

theorem strLe_trans (a b c : String) (hab : strLe a b = true)
    (hbc : strLe b c = true) : strLe a c = true :=
  listLe_trans a.data b.data c.data hab hbc

theorem insertSorted_perm (x : String) (l : List String) :
    (insertSorted x l).Perm (x :: l) := by
  induction l with
  | nil => exact List.Perm.refl _
  | cons y ys ih =>
    by_cases h : strLe x y = true
    · simp [insertSorted, h]
    · simp only [insertSorted, h, if_false]
      exact ((ih.cons y).trans (List.Perm.swap x y ys))

theorem sortStrings_perm (l : List String) : (sortStrings l).Perm l := by
  induction l with
  | nil => exact List.Perm.refl _
  | cons x xs ih =>
    simp only [sortStrings, List.foldr]
    exact (insertSorted_perm x _).trans (ih.cons x)

theorem insertSorted_pairwise (x : String) (l : List String)
    (h : List.Pairwise (fun a b => strLe a b = true) l) :
    List.Pairwise (fun a b => strLe a b = true) (insertSorted x l) := by
  induction l with
  | nil => simp [insertSorted]
  | cons y ys ih =>
    by_cases hxy : strLe x y = true
    · simp only [insertSorted, hxy, if_true]
      refine List.Pairwise.cons ?_ h
      intro z hz
      rcases List.mem_cons.mp hz with hz | hz
      · exact hz ▸ hxy
      · have hy := (List.pairwise_cons.mp h).1
        exact strLe_trans x y z hxy (hy z hz)
    · simp only [insertSorted, hxy, if_false]
      obtain ⟨hy, hys⟩ := List.pairwise_cons.mp h
      refine List.Pairwise.cons ?_ (ih hys)
      intro z hz
      rcases List.mem_cons.mp ((insertSorted_perm x ys).mem_iff.mp hz) with hz2 | hz2
      · rw [hz2]
        rcases strLe_total x y with h1 | h1
        · exact absurd h1 hxy
        · exact h1
      · exact hy z hz2

theorem sortStrings_pairwise (l : List String) :
    List.Pairwise (fun a b => strLe a b = true) (sortStrings l) := by
  induction l with
  | nil => simp [sortStrings]
  | cons x xs ih =>
    simp only [sortStrings, List.foldr]
    exact insertSorted_pairwise x _ ih

/-- C5: discovery is invariant under deleting every excluded-named subtree
(`pruneTree`), so a source file nested at any depth inside `.git`, `.venv`,
`__pycache__` or `node_modules` is never discovered; moreover an
excluded-named directory contributes nothing to the traversal at its level —
its files and subdirectories, arbitrary as they are, are never descended
into. -/
theorem excluded_dirs_never_descended (t : DirTree) :
    find_mmd_files (pruneTree t) = find_mmd_files t ∧
    (∀ path name files dirs rest, name ∈ excluded_dirs →
      collectForest path (DirForest.cons (DirTree.node name files dirs) rest) =
        collectForest path rest) := by
  constructor
  · unfold find_mmd_files
    rw [collectTree_prune]
  · intro path name files dirs rest h
    simp [collectForest, DirTree.name, h]

/-- Witness for C5: pruning the demonstration tree (which has a `c.mmd`
inside `node_modules`) leaves the discovery result unchanged, and a
`node_modules` subtree contributes nothing. -/
theorem excluded_dirs_never_descended_witness :
    find_mmd_files (pruneTree demoDirTree) = find_mmd_files demoDirTree ∧
    collectForest "."
      (DirForest.cons (DirTree.node "node_modules" ["c.mmd"] DirForest.nil) DirForest.nil) =
      collectForest "." DirForest.nil :=
  ⟨(excluded_dirs_never_descended demoDirTree).1,
    (excluded_dirs_never_descended demoDirTree).2 "." "node_modules" ["c.mmd"]
      DirForest.nil DirForest.nil (by decide)⟩

/-- C6: discovery returns the collected paths sorted lexicographically (by
code point, as Python compares strings): the result is pairwise ordered and
is a permutation of the raw traversal output. Determinism of repeated runs
on an unchanged tree is immediate because `find_mmd_files` is a pure
function of the tree. -/
theorem discovery_sorted (t : DirTree) :
    List.Pairwise (fun a b => strLe a b = true) (find_mmd_files t) ∧
    (find_mmd_files t).Perm (collectTree "." t) :=
  ⟨sortStrings_pairwise _, sortStrings_perm _⟩

/-- In a pairwise-`strLe` list, every element is `strLe` the last element. -/
theorem pairwise_le_getLast (s : List String)
    (hp : List.Pairwise (fun a b => strLe a b = true) s) :
    ∀ hne : s ≠ [], ∀ x ∈ s, strLe x (s.getLast hne) = true := by
  induction s with
  | nil => intro hne; exact absurd rfl hne
  | cons a as ih =>
    intro hne x hx
    cases as with
    | nil =>
      have hxa : x = a := by simpa using hx
      rw [hxa]
      exact strLe_refl a
    | cons b bs =>
      obtain ⟨ha, has⟩ := List.pairwise_cons.mp hp
      rcases List.mem_cons.mp hx with hxa | hxmem
      · rw [hxa, List.getLast_cons (by simp)]
        exact ha _ (List.getLast_mem (by simp))
      · rw [List.getLast_cons (by simp)]
        exact ih has (by simp) x hxmem

/-- The last element of `sortStrings l` is a maximum of `l` under `strLe`:
this is what Python's `sorted(matches)[-1]` selects. -/
theorem sortStrings_max (l : List String) (hne : l ≠ []) :
    ∃ m, (sortStrings l).getLast? = some m ∧ m ∈ l ∧ ∀ x ∈ l, strLe x m = true := by
  have hperm := sortStrings_perm l
  have hsne : sortStrings l ≠ [] := by
    intro h
    rw [h] at hperm
    exact hne hperm.nil_eq.symm
  refine ⟨(sortStrings l).getLast hsne, ?_, ?_, ?_⟩
  · exact List.getLast?_eq_getLast _ hsne
  · exact hperm.mem_iff.mp (List.getLast_mem hsne)
  · intro x hx
    exact pairwise_le_getLast _ (sortStrings_pairwise l) hsne x (hperm.mem_iff.mpr hx)

/-- C7: helper-executable discovery tries its strategies in a fixed order
with the first match winning — fixed system paths by existence, then glob
patterns where the lexicographically greatest match of the first non-empty
pattern is chosen, then the cache walk preferring `chrome-headless-shell`
and skipping a plain `chrome` under a root containing `headless`; when
nothing is found the result is `none` and the child environment is exactly
the parent environment. -/
theorem chrome_discovery_strategy_order (env : ChromeEnv) :
    (∀ p, system_chrome_paths.find? (fun q => env.pathExists q) = some p →
      find_chrome_path env = some p)
    ∧ (system_chrome_paths.find? (fun q => env.pathExists q) = none →
        ((∀ p, globStage env (puppeteer_cache_paths env.home) = some p →
            find_chrome_path env = some p)
         ∧ (globStage env (puppeteer_cache_paths env.home) = none →
            find_chrome_path env =
              (if env.pathExists (env.home ++ "/.cache/puppeteer/chrome") then
                walkChrome env.cacheWalk
              else none))))
    ∧ (∀ pat pats, env.glob pat ≠ [] →
        ∃ m, globStage env (pat :: pats) = some m ∧ m ∈ env.glob pat ∧
          ∀ x ∈ env.glob pat, strLe x m = true)
    ∧ (∀ root files rest, files.contains "chrome-headless-shell" = true →
        walkChrome ((root, files) :: rest) = some (pathJoin root "chrome-headless-shell"))
    ∧ (∀ root files rest, files.contains "chrome-headless-shell" = false →
        files.contains "chrome" = true → occursIn "headless".data root.data = true →
        walkChrome ((root, files) :: rest) = walkChrome rest)
    ∧ (∀ parent : String → Option String, childEnv parent none = parent) := by
  refine ⟨?_, ?_, ?_, ?_, ?_, ?_⟩
  · intro p hp
    unfold find_chrome_path
    rw [hp]
  · intro hsys
    constructor
    · intro p hp
      unfold find_chrome_path
      rw [hsys, hp]
    · intro hglob
      unfold find_chrome_path
      rw [hsys, hglob]
  · intro pat pats hne
    obtain ⟨m, hm, hmem, hmax⟩ := sortStrings_max (env.glob pat) hne
    refine ⟨m, ?_, hmem, hmax⟩
    have hempty : (env.glob pat).isEmpty = false := by
      cases h : env.glob pat with
      | nil => exact absurd h hne
      | cons a as => simp [List.isEmpty]
    simp only [globStage, hempty, Bool.false_eq_true, if_false]
    exact hm
  · intro root files rest h
    have h2 : "chrome-headless-shell" ∈ files := by simpa using h
    simp [walkChrome, h2]
  · intro root files rest h1 h2 h3
    have h4 : "chrome-headless-shell" ∉ files := by simpa using h1
    simp [walkChrome, h4, h3]
  · intro parent
    rfl

/-- Witness for C7: on `chromeEnvW` the first strategy wins with
`/usr/bin/chromium`; on a non-empty glob the lexicographic maximum `v9` is
selected; the walk prefers `chrome-headless-shell` and skips a `chrome`
under a `headless` root; and an absent helper leaves the environment
untouched. -/
theorem chrome_discovery_strategy_order_witness :
    find_chrome_path chromeEnvW = some "/usr/bin/chromium" ∧
    (∃ m, globStage chromeEnvW ["p"] = some m ∧ m ∈ chromeEnvW.glob "p" ∧
      ∀ x ∈ chromeEnvW.glob "p", strLe x m = true) ∧
    walkChrome [("cache/b", ["chrome-headless-shell"])] =
      some (pathJoin "cache/b" "chrome-headless-shell") ∧
    walkChrome [("cache/headless-a", ["chrome"]), ("cache/b", ["chrome-headless-shell"])] =
      walkChrome [("cache/b", ["chrome-headless-shell"])] ∧
    childEnv (fun _ => none) none = (fun _ => none) :=
  ⟨(chrome_discovery_strategy_order chromeEnvW).1 "/usr/bin/chromium" (by decide),
    (chrome_discovery_strategy_order chromeEnvW).2.2.1 "p" [] (by decide),
    (chrome_discovery_strategy_order chromeEnvW).2.2.2.1 "cache/b"
      ["chrome-headless-shell"] [] (by decide),
    (chrome_discovery_strategy_order chromeEnvW).2.2.2.2.1 "cache/headless-a"
      ["chrome"] [("cache/b", ["chrome-headless-shell"])] (by decide) (by decide) (by decide),
    (chrome_discovery_strategy_order chromeEnvW).2.2.2.2.2 (fun _ => none)⟩

/-- `needs_generation` returns exactly one of the three documented pairs. -/
theorem needs_generation_cases (fs : FS) (f : String) :
    needs_generation fs f = (true, Verdict.missing) ∨
    needs_generation fs f = (true, Verdict.outdated) ∨
    needs_generation fs f = (false, Verdict.up_to_date) := by
  unfold needs_generation
  simp only []
  split_ifs <;> simp

/-- Each loop iteration appends the processed file to the invocation trace
exactly when it needed work. -/
theorem processFile_renderCalls (env : Env) (st : LoopState) (f : String) :
    (processFile env st f).renderCalls =
      st.renderCalls ++ (if (needs_generation env.fs f).1 then [f] else []) := by
  rcases needs_generation_cases env.fs f with h | h | h
  · cases ho : env.renderOutcome f <;> simp [processFile, h, generate_svg, ho]
  · cases ho : env.renderOutcome f <;> simp [processFile, h, generate_svg, ho]
  · simp [processFile, h]

/-- Each loop iteration appends exactly the error record `errF`. -/
theorem processFile_errors (env : Env) (st : LoopState) (f : String) :
    (processFile env st f).errors = st.errors ++ (errF env f).toList := by
  rcases needs_generation_cases env.fs f with h | h | h
  · cases ho : env.renderOutcome f <;> simp [processFile, errF, h, generate_svg, ho]
  · cases ho : env.renderOutcome f <;> simp [processFile, errF, h, generate_svg, ho]
  · simp [processFile, errF, h]

/-- Every iteration counts its file in exactly one category. -/
theorem processFile_sum (env : Env) (st : LoopState) (f : String) :
    stateSum (processFile env st f) = stateSum st + 1 := by
  rcases needs_generation_cases env.fs f with h | h | h
  · cases ho : env.renderOutcome f <;>
      simp [processFile, stateSum, h, generate_svg, ho] <;> omega
  · cases ho : env.renderOutcome f <;>
      simp [processFile, stateSum, h, generate_svg, ho] <;> omega
  · simp [processFile, stateSum, h]
    omega

/-- No iteration decrements a counter or shrinks the error list. -/
theorem processFile_mono (env : Env) (st : LoopState) (f : String) :
    st.generated ≤ (processFile env st f).generated ∧
    st.updated ≤ (processFile env st f).updated ∧
    st.skipped ≤ (processFile env st f).skipped ∧
    st.errors.length ≤ (processFile env st f).errors.length := by
  rcases needs_generation_cases env.fs f with h | h | h
  · cases ho : env.renderOutcome f <;>
      simp [processFile, h, generate_svg, ho]
  · cases ho : env.renderOutcome f <;>
      simp [processFile, h, generate_svg, ho]
  · simp [processFile, h]

/-- Folding the loop: the invocation trace collects exactly the files that
needed work, in order. -/
theorem foldl_renderCalls (env : Env) :
    ∀ (files : List String) (st : LoopState),
      (files.foldl (processFile env) st).renderCalls =
        st.renderCalls ++ files.filter (fun f => (needs_generation env.fs f).1)
  | [], st => by simp
  | f :: fs, st => by
    rw [List.foldl_cons, foldl_renderCalls env fs, processFile_renderCalls]
    by_cases h : (needs_generation env.fs f).1 <;> simp [h]

/-- Folding the loop: the error list collects exactly the failed files with
their captured standard error. -/
theorem foldl_errors (env : Env) :
    ∀ (files : List String) (st : LoopState),
      (files.foldl (processFile env) st).errors =
        st.errors ++ files.filterMap (errF env)
  | [], st => by simp
  | f :: fs, st => by
    rw [List.foldl_cons, foldl_errors env fs, processFile_errors]
    cases h : errF env f <;> simp [h]

/-- Folding the loop: the four categories always total the number of files
processed. -/
theorem foldl_sum (env : Env) :
    ∀ (files : List String) (st : LoopState),
      stateSum (files.foldl (processFile env) st) = stateSum st + files.length
  | [], st => by simp
  | f :: fs, st => by
    rw [List.foldl_cons, foldl_sum env fs, processFile_sum]
    simp
    omega

/-- When the availability check passes and discovery is non-empty, the run
result is the fold of the loop over the sorted file list: this names its
errors, invocation trace, exit code and category total. -/
theorem main_loop_spec (env : Env)
    (hcheck : check_mmdc env.mmdcProc = true)
    (hne : (find_mmd_files env.tree).isEmpty = false) :
    (main env).errors = (find_mmd_files env.tree).filterMap (errF env) ∧
    (main env).renderCalls =
      (find_mmd_files env.tree).filter (fun f => (needs_generation env.fs f).1) ∧
    (main env).exitCode =
      (if ((find_mmd_files env.tree).filterMap (errF env)).isEmpty then 0 else 1) ∧
    (main env).generated + (main env).updated + (main env).skipped +
        (main env).errors.length = (find_mmd_files env.tree).length := by
  simp only [main, hcheck, Bool.true_eq_false, if_false, hne, Bool.false_eq_true]
  refine ⟨?_, ?_, ?_, ?_⟩
  · simp [foldl_errors]
  · simp [foldl_renderCalls]
  · simp [foldl_errors]
  · have hs := foldl_sum env (find_mmd_files env.tree)
      { generated := 0, updated := 0, skipped := 0, errors := [], renderCalls := [],
        out := ["Scanning for Mermaid files (.mmd)...",
                "Found " ++ toString (find_mmd_files env.tree).length ++ " file(s)"] }
    unfold stateSum at hs
    simpa using hs

/-- C3: a render failure is recorded under `errors` with its captured
standard error, every file needing work is still attempted (the batch is
not aborted), and the process exit code is 1. -/
theorem render_failure_recoverable (env : Env) (mmd err : String)
    (hcheck : check_mmdc env.mmdcProc = true)
    (hmem : mmd ∈ find_mmd_files env.tree)
    (hneeds : (needs_generation env.fs mmd).1 = true)
    (hfail : env.renderOutcome mmd = some err) :
    (mmd, some err) ∈ (main env).errors ∧
    (∀ mmd2, mmd2 ∈ find_mmd_files env.tree → (needs_generation env.fs mmd2).1 = true →
      mmd2 ∈ (main env).renderCalls) ∧
    (main env).exitCode = 1 := by
  have hne : (find_mmd_files env.tree).isEmpty = false := by
    cases h : find_mmd_files env.tree with
    | nil => rw [h] at hmem; simp at hmem
    | cons a as => simp [List.isEmpty]
  obtain ⟨herr, hcalls, hexit, _⟩ := main_loop_spec env hcheck hne
  have hmm : (mmd, some err) ∈ (find_mmd_files env.tree).filterMap (errF env) := by
    rw [List.mem_filterMap]
    exact ⟨mmd, hmem, by simp [errF, hneeds, hfail]⟩
  refine ⟨?_, ?_, ?_⟩
  · rw [herr]
    exact hmm
  · intro mmd2 hmem2 hneeds2
    rw [hcalls]
    simp [List.mem_filter, hmem2, hneeds2]
  · rw [hexit, if_neg]
    intro hempty
    rw [List.isEmpty_iff] at hempty
    rw [hempty] at hmm
    simp at hmm

/-- C4: the availability check succeeds iff the version probe ran and
exited cleanly; both launch-failure modes are indistinguishable in the
result; and on unavailability the run exits 1 before any discovery or
rendering, printing the install instructions (which include the
headless-browser prerequisite). -/
theorem availability_gate (r : ProcResult) (env : Env) :
    (check_mmdc r = true ↔ r = ProcResult.success)
    ∧ check_mmdc ProcResult.nonzeroExit = check_mmdc ProcResult.notFound
    ∧ (check_mmdc env.mmdcProc = false →
        (main env).exitCode = 1 ∧ (main env).discoveryRan = false ∧
        (main env).renderCalls = [] ∧ (main env).out = installMsg) := by
  refine ⟨?_, rfl, ?_⟩
  · cases r <;> simp [check_mmdc]
  · intro h
    simp [main, h]

/-- Witness for C4: with the executable missing, the run aborts with exit
code 1, no discovery, no render calls and the install message. -/
theorem availability_gate_witness :
    (check_mmdc ProcResult.notFound = true ↔ ProcResult.notFound = ProcResult.success) ∧
    ((main envBad).exitCode = 1 ∧ (main envBad).discoveryRan = false ∧
      (main envBad).renderCalls = [] ∧ (main envBad).out = installMsg) :=
  ⟨(availability_gate ProcResult.notFound envBad).1,
    (availability_gate ProcResult.notFound envBad).2.2 (by decide)⟩

/-- C8: when Chrome discovery fails the child environment is exactly the
parent environment; when it finds a path, exactly the two variables
`PUPPETEER_EXECUTABLE_PATH` and `CHROME_PATH` are set, both to that path,
and every other variable passes through unchanged. -/
theorem child_env_exact (env : Env) (p : String) :
    (find_chrome_path env.chromeEnv = none → renderChildEnv env = env.osEnviron)
    ∧ (find_chrome_path env.chromeEnv = some p →
        renderChildEnv env "PUPPETEER_EXECUTABLE_PATH" = some p ∧
        renderChildEnv env "CHROME_PATH" = some p ∧
        ∀ k, k ≠ "PUPPETEER_EXECUTABLE_PATH" → k ≠ "CHROME_PATH" →
          renderChildEnv env k = env.osEnviron k) := by
  constructor
  · intro h
    unfold renderChildEnv
    rw [h]
    rfl
  · intro h
    unfold renderChildEnv
    rw [h]
    refine ⟨rfl, rfl, ?_⟩
    intro k h1 h2
    simp [childEnv, h1, h2]

/-- C9: with the renderer available and no sources discovered, the run
exits 0, prints exactly the no-files notice, and makes no render
invocation. -/
theorem no_sources_clean_exit (env : Env)
    (hcheck : check_mmdc env.mmdcProc = true)
    (hempty : find_mmd_files env.tree = []) :
    (main env).exitCode = 0 ∧
    (main env).out = ["No .mmd files found."] ∧
    (main env).renderCalls = [] := by
  simp [main, hcheck, hempty]

/-- C10: whenever the run reaches past the availability check, the four
summary categories partition the discovered files —
`generated + updated + skipped + |errors| = |files|` — and no step of the
loop ever decreases a counter or shrinks the error list. -/
theorem summary_counts_partition (env : Env)
    (hcheck : check_mmdc env.mmdcProc = true) :
    ((main env).generated + (main env).updated + (main env).skipped +
        (main env).errors.length = (find_mmd_files env.tree).length)
    ∧ (∀ st f, st.generated ≤ (processFile env st f).generated ∧
        st.updated ≤ (processFile env st f).updated ∧
        st.skipped ≤ (processFile env st f).skipped ∧
        st.errors.length ≤ (processFile env st f).errors.length) := by
  constructor
  · cases hne : (find_mmd_files env.tree).isEmpty with
    | true =>
      rw [List.isEmpty_iff] at hne
      simp [main, hcheck, hne]
    | false =>
      exact (main_loop_spec env hcheck hne).2.2.2
  · exact fun st f => processFile_mono env st f

/-- Witness for C3 on `envW`: the failed `./a.mmd` is recorded with stderr
`boom`, the later `./sub/d.mmd` is still invoked, and the run exits 1. -/
theorem render_failure_recoverable_witness :
    ("./a.mmd", some "boom") ∈ (main envW).errors ∧
    "./sub/d.mmd" ∈ (main envW).renderCalls ∧
    (main envW).exitCode = 1 :=
  ⟨(render_failure_recoverable envW "./a.mmd" "boom"
      (by decide) (by decide) (by decide) (by decide)).1,
    (render_failure_recoverable envW "./a.mmd" "boom"
      (by decide) (by decide) (by decide) (by decide)).2.1 "./sub/d.mmd"
      (by decide) (by decide),
    (render_failure_recoverable envW "./a.mmd" "boom"
      (by decide) (by decide) (by decide) (by decide)).2.2⟩

/-- Witness for C8: with no helper found the child environment is the
parent's; with `/usr/bin/chromium` found both variables carry it and an
unrelated variable (`HOME`) passes through. -/
theorem child_env_exact_witness :
    renderChildEnv envNone = envNone.osEnviron ∧
    renderChildEnv envW "PUPPETEER_EXECUTABLE_PATH" = some "/usr/bin/chromium" ∧
    renderChildEnv envW "CHROME_PATH" = some "/usr/bin/chromium" ∧
    renderChildEnv envW "HOME" = envW.osEnviron "HOME" :=
  ⟨(child_env_exact envNone "/usr/bin/chromium").1 (by decide),
    ((child_env_exact envW "/usr/bin/chromium").2 (by decide)).1,
    ((child_env_exact envW "/usr/bin/chromium").2 (by decide)).2.1,
    ((child_env_exact envW "/usr/bin/chromium").2 (by decide)).2.2 "HOME"
      (by decide) (by decide)⟩

/-- Witness for C9: a tree with no sources exits 0 with the notice and no
render call. -/
theorem no_sources_clean_exit_witness :
    (main envEmpty).exitCode = 0 ∧
    (main envEmpty).out = ["No .mmd files found."] ∧
    (main envEmpty).renderCalls = [] :=
  no_sources_clean_exit envEmpty (by decide) (by decide)

/-- Witness for C10 on `envW`: the categories total the three discovered
files, and one concrete step never decrements. -/
theorem summary_counts_partition_witness :
    ((main envW).generated + (main envW).updated + (main envW).skipped +
        (main envW).errors.length = (find_mmd_files envW.tree).length) ∧
    (stW.generated ≤ (processFile envW stW "./a.mmd").generated ∧
      stW.updated ≤ (processFile envW stW "./a.mmd").updated ∧
      stW.skipped ≤ (processFile envW stW "./a.mmd").skipped ∧
      stW.errors.length ≤ (processFile envW stW "./a.mmd").errors.length) :=
  ⟨(summary_counts_partition envW (by decide)).1,
    (summary_counts_partition envW (by decide)).2 stW "./a.mmd"⟩
